import Mathlib

/-!
Verification of the sampling/shape logic of `grl/generative_models/normalizing_flow/flow.py`
(`FlowModel.sample`, `FlowModel.sample_forward_process`) and of the dataset utilities in
`grl/datasets/minari_dataset.py` (`MinariDataset.__getitem__`, `MinariDataset.return_range`).

Tensors are modelled shallowly as a shape (list of dimension sizes) together with a flat
row-major data list, which is exactly the layout `torch.reshape`, `torch.squeeze` and
`torch.repeat_interleave` operate on.  The external collaborators (the intrinsic model,
the numerical solver's `integrate`, the Gaussian initial-state sampler) are parameters of
the embedded functions, as the spec treats them as external interfaces.
-/

deriving instance DecidableEq for Except

/-- A flat-data tensor: `shape` is the list of dimension sizes, `data` the row-major
flat contents (element values modelled as integers; the shape logic under verification
never inspects element values). -/
structure Tensor where
  shape : List Nat
  data : List Int
deriving DecidableEq

/-- Well-formedness: the flat data has exactly `shape.prod` elements. -/
abbrev Tensor.WF (t : Tensor) : Prop := t.data.length = t.shape.prod

/-- Number of flat data elements in one leading-dimension slice (the product of the
trailing dimension sizes). -/
def Tensor.rowSize (t : Tensor) : Nat := t.shape.tail.prod

/-- Row `i` along the leading dimension, as a flat list (PyTorch `t[i]` flattened). -/
def Tensor.row (t : Tensor) (i : Nat) : List Int :=
  (t.data.drop (i * t.rowSize)).take t.rowSize

/-- `torch.repeat_interleave(t, k, dim=0)`: each leading-dimension entry `i` is repeated
`k` times contiguously, so entry `i` of the input occupies output rows
`[i*k, (i+1)*k)`. -/
def Tensor.repeatInterleave0 (t : Tensor) (k : Nat) : Tensor :=
  { shape := t.shape.headD 0 * k :: t.shape.tail,
    data := ((List.range (t.shape.headD 0)).map
      (fun i => (List.replicate k (t.row i)).flatten)).flatten }

/-- `torch.reshape(t, (-1, *rest))`: the leading dimension is inferred as
`numel / rest.prod`; the flat data is unchanged.  (PyTorch raises when the sizes do not
divide; all uses below are guarded by hypotheses making the division exact.) -/
def Tensor.reshapeRest (t : Tensor) (rest : List Nat) : Tensor :=
  { shape := (t.data.length / rest.prod) :: rest, data := t.data }

/-- `torch.squeeze(t, i)`: remove axis `i` when it has size 1, otherwise return `t`
unchanged. -/
def Tensor.squeezeDim (t : Tensor) (i : Nat) : Tensor :=
  if t.shape.getD i 0 = 1 then { shape := t.shape.eraseIdx i, data := t.data } else t

/-- Python `t[i]` on the leading (time) axis of a trajectory tensor. -/
def Tensor.timeSlice (t : Tensor) (i : Nat) : Tensor :=
  match t.shape with
  | [] => t
  | _ :: rest => { shape := rest, data := (t.data.drop (i * rest.prod)).take rest.prod }

/-- Python `t[-1]` on the leading (time) axis. -/
def Tensor.lastTime (t : Tensor) : Tensor :=
  match t.shape with
  | [] => t
  | n :: rest =>
    { shape := rest, data := (t.data.drop ((n - 1) * rest.prod)).take rest.prod }

/-- A 1-D (or, hypothetically, 0-D) integer tensor as produced by `torch.tensor(...)`
on a tuple/list of ints — the representation of `extra_batch_size` in
`sample_forward_process`. -/
structure NatTensor where
  shape : List Nat
  data : List Nat
deriving DecidableEq

/-- The `batch_size` argument of `sample_forward_process`: `None`, an `int`, a
`torch.Size`/`Tuple`/`List` of ints, or any other (invalid) type. -/
inductive BatchSizeArg
  | none
  | int (b : Nat)
  | seq (l : List Nat)
  | invalid
deriving DecidableEq

/-- The configured `x_size`: in the flat-tensor paths of the source it is either a
plain `int` or a `Tuple`/`List`/`torch.Size` of ints. -/
inductive XSize
  | int (d : Nat)
  | seq (l : List Nat)
deriving DecidableEq

/-- The trailing per-sample shape denoted by an `x_size` value. -/
def XSize.toList : XSize → List Nat
  | .int d => [d]
  | .seq l => l

/-- Solver families dispatched on by `sample_forward_process`:
`ODESolver`, `DictTensorODESolver`, or any other solver type (which hits the final
`raise NotImplementedError`). -/
inductive SolverKind
  | odeSolver
  | dictTensorODESolver
  | other
deriving DecidableEq

/-- The errors `sample_forward_process` can raise before returning:
`assert False, "Invalid batch size"`; the x_0/condition batch-size assert; the
"solver must be specified" assert; the x_0-shape assert; the `AttributeError`
raised by `self.diffusion_process` (never assigned on `FlowModel`) on the
`DictTensorODESolver` path; and the final `NotImplementedError`. -/
inductive FlowErr
  | invalidBatchSize
  | batchMismatch
  | noSolver
  | xShapeMismatch
  | attributeError
  | notImplemented
deriving DecidableEq

/-- The `FlowModel` state relevant to sampling: the configured `x_size`, the optional
default solver built in `__init__` when `config` has a `solver` attribute, and the
parameter list of the intrinsic model (what `find_parameters(self.model)` returns,
modelled as an opaque list of parameter identifiers). -/
structure FlowModel where
  x_size : XSize
  solver : Option SolverKind
  params : List Nat
deriving DecidableEq

/-- A record of one `solver.integrate(...)` invocation made by
`sample_forward_process`: which solver family, the initial state actually passed,
the time span, whether the call runs inside `torch.no_grad()`, the `adjoint_params`
keyword (absent when the source passes none), and the (already repeat-interleaved)
condition captured by the drift closure. -/
structure IntegrateCall where
  kind : SolverKind
  x0 : Tensor
  tSpan : List Int
  noGradContext : Bool
  adjointParams : Option (List Nat)
  condition : Option Tensor
deriving DecidableEq

/-- Lines 110-122 of flow.py: normalize the `batch_size` argument into the
`extra_batch_size` tensor.  `None` becomes `torch.tensor((1,))`, an int `b` becomes
`torch.tensor((b,))`, a sequence becomes `torch.tensor(seq)`; any other type hits
`assert False, "Invalid batch size"`. -/
def normalize_extra_batch_size : BatchSizeArg → Except FlowErr NatTensor
  | .none => .ok { shape := [1], data := [1] }
  | .int b => .ok { shape := [1], data := [b] }
  | .seq l => .ok { shape := [l.length], data := l }
  | .invalid => .error .invalidBatchSize

/-- Lines 124-134 of flow.py: infer `data_batch_size` from `x_0` and `condition`,
asserting equal leading sizes when both are given. -/
def infer_data_batch_size : Option Tensor → Option Tensor → Except FlowErr Nat
  | some x0, some cond =>
    if x0.shape.headD 0 = cond.shape.headD 0 then .ok (x0.shape.headD 0)
    else .error .batchMismatch
  | some x0, Option.none => .ok (x0.shape.headD 0)
  | Option.none, some cond => .ok (cond.shape.headD 0)
  | Option.none, Option.none => .ok 1

/-- The context `sample_forward_process` has built once it is about to call
`solver.integrate`: the normalized extra batch tensor, the inferred data batch size,
and the integrate invocation itself. -/
structure PrepCtx where
  extra_batch_size : NatTensor
  data_batch_size : Nat
  call : IntegrateCall
deriving DecidableEq

/-- Lines 136-142 of flow.py: a per-call `solver_config` overrides the model default;
with neither, the "solver must be specified in config or solver_config" assert
fires. -/
def select_solver (m : FlowModel) : Option SolverKind → Except FlowErr SolverKind
  | some cfg => .ok cfg
  | Option.none =>
    match m.solver with
    | some s => .ok s
    | Option.none => .error .noSolver

/-- Lines 144-166 of flow.py: the flat initial state.  Without `x_0`, a Gaussian draw
of batch size `prod(extra_batch_size) * data_batch_size`; with `x_0`, its trailing
per-sample shape is asserted equal to the configured `x_size` and it is
repeat-interleaved along dim 0 by `prod(extra_batch_size)`. -/
def build_x (m : FlowModel) (gaussian : Nat → Tensor) (k data_batch_size : Nat) :
    Option Tensor → Except FlowErr Tensor
  | Option.none => .ok (gaussian (k * data_batch_size))
  | some x0 =>
    match m.x_size with
    | .int d =>
      if x0.shape.tail = [d] then .ok (x0.repeatInterleave0 k)
      else .error .xShapeMismatch
    | .seq l =>
      if x0.shape.tail = l then .ok (x0.repeatInterleave0 k)
      else .error .xShapeMismatch

/-- Lines 107-224 of flow.py up to and including the construction of the
`solver.integrate` call: normalize the batch size, infer the data batch size, select
the solver, build the flat initial state, repeat-interleave the condition, and
dispatch on the solver family.  The `ODESolver` branch calls `integrate` with
`adjoint_params=find_parameters(self.model)` in both gradient modes, the grad-free
mode inside `torch.no_grad()`.  The `DictTensorODESolver` branch evaluates
`self.diffusion_process`, an attribute `FlowModel` never sets, so it raises
`AttributeError` before any integrate call; any other solver raises
`NotImplementedError`. -/
def prepare (m : FlowModel) (gaussian : Nat → Tensor) (t_span : List Int)
    (batch_size : BatchSizeArg) (x_0 condition : Option Tensor)
    (with_grad : Bool) (solver_config : Option SolverKind) :
    Except FlowErr PrepCtx :=
  match normalize_extra_batch_size batch_size with
  | .error e => .error e
  | .ok extra_batch_size =>
    match infer_data_batch_size x_0 condition with
    | .error e => .error e
    | .ok data_batch_size =>
      match select_solver m solver_config with
      | .error e => .error e
      | .ok solver =>
        match build_x m gaussian extra_batch_size.data.prod data_batch_size x_0 with
        | .error e => .error e
        | .ok x =>
          let condition := condition.map
            (fun c => c.repeatInterleave0 extra_batch_size.data.prod)
          match solver with
          | .odeSolver =>
            .ok { extra_batch_size := extra_batch_size,
                  data_batch_size := data_batch_size,
                  call := { kind := .odeSolver, x0 := x, tSpan := t_span,
                            noGradContext := !with_grad,
                            adjointParams := some m.params,
                            condition := condition } }
          | .dictTensorODESolver => .error .attributeError
          | .other => .error .notImplemented

/-- Lines 226-273 of flow.py (the `torch.Tensor` result branch): reshape the flat
trajectory `(T, B*N, *x_size)` into `(T, *extra_batch_size, N, *x_size)` (the
`len(extra_batch_size.shape) == 0` guard selects the variant that uses the scalar
value directly), then squeeze per the four regimes: `batch_size is None` squeezes the
extra-batch axis, and additionally the data-batch axis when neither `x_0` nor
`condition` was supplied; an explicit `batch_size` squeezes axis
`1 + len(extra_batch_size.shape)` when neither `x_0` nor `condition` was supplied. -/
def postprocess (m : FlowModel) (batch_size : BatchSizeArg)
    (x0None condNone : Bool) (extra_batch_size : NatTensor)
    (data_batch_size : Nat) (data : Tensor) : Tensor :=
  let dims : List Nat :=
    match m.x_size with
    | .int d => [d]
    | .seq l => l
  let data :=
    if extra_batch_size.shape.length == 0 then
      data.reshapeRest (extra_batch_size.data.headD 1 :: data_batch_size :: dims)
    else
      data.reshapeRest (extra_batch_size.data ++ data_batch_size :: dims)
  match batch_size with
  | .none =>
    if x0None && condNone then (data.squeezeDim 1).squeezeDim 1
    else data.squeezeDim 1
  | _ =>
    if x0None && condNone then
      data.squeezeDim (1 + extra_batch_size.shape.length)
    else data

/-- `FlowModel.sample_forward_process` (flow.py lines 75-327, flat-tensor path):
prepare the integrate call, run the external integrator on it, and apply the inverse
shape composition to the returned trajectory. -/
def sample_forward_process (m : FlowModel) (gaussian : Nat → Tensor)
    (integrate : IntegrateCall → Tensor) (t_span : List Int)
    (batch_size : BatchSizeArg) (x_0 condition : Option Tensor)
    (with_grad : Bool) (solver_config : Option SolverKind) :
    Except FlowErr Tensor :=
  match prepare m gaussian t_span batch_size x_0 condition with_grad solver_config with
  | .error e => .error e
  | .ok ctx =>
    .ok (postprocess m batch_size x_0.isNone condition.isNone
      ctx.extra_batch_size ctx.data_batch_size (integrate ctx.call))

/-- `FlowModel.sample` (flow.py lines 56-73): `sample_forward_process(...)[-1]`. -/
def sample (m : FlowModel) (gaussian : Nat → Tensor)
    (integrate : IntegrateCall → Tensor) (t_span : List Int)
    (batch_size : BatchSizeArg) (x_0 condition : Option Tensor)
    (with_grad : Bool) (solver_config : Option SolverKind) :
    Except FlowErr Tensor :=
  match sample_forward_process m gaussian integrate t_span batch_size x_0 condition
      with_grad solver_config with
  | .error e => .error e
  | .ok data => .ok data.lastTime

/-- The shape of a successful sampling result (`none` when the call errored). -/
def resultShape : Except FlowErr Tensor → Option (List Nat)
  | .ok t => some t.shape
  | .error _ => Option.none

/-- `postprocess` with the (dead) `len(extra_batch_size.shape) == 0` reshape branch
removed: only the rank-1 reshape, which splats the entries of `extra_batch_size`.
Stated from the spec's words that the rank-1 branch is always the one taken; compared
against `postprocess` below. -/
def postprocessAlwaysRankOne (m : FlowModel) (batch_size : BatchSizeArg)
    (x0None condNone : Bool) (extra_batch_size : NatTensor)
    (data_batch_size : Nat) (data : Tensor) : Tensor :=
  let dims : List Nat :=
    match m.x_size with
    | .int d => [d]
    | .seq l => l
  let data := data.reshapeRest (extra_batch_size.data ++ data_batch_size :: dims)
  match batch_size with
  | .none =>
    if x0None && condNone then (data.squeezeDim 1).squeezeDim 1
    else data.squeezeDim 1
  | _ =>
    if x0None && condNone then
      data.squeezeDim (1 + extra_batch_size.shape.length)
    else data

/-! ## MinariDataset (`grl/datasets/minari_dataset.py`) -/

/-- A value of the item dict returned by `MinariDataset.__getitem__`: either a tensor
row, or the literal scalar `0.0` fallback used for `fake_a`/`fake_a_` when fake
actions were never attached. -/
inductive ItemVal
  | tensor (row : List Int)
  | scalarZero
deriving DecidableEq

/-- The dict returned by `MinariDataset.__getitem__`. -/
structure Item where
  s : List Int
  a : List Int
  r : List Int
  s_ : List Int
  d : List Int
  fake_a : ItemVal
  fake_a_ : ItemVal
deriving DecidableEq

/-- The fields of `MinariDataset` that `__getitem__` and `__len__` read: the five
per-transition tensors (each modelled as a list of rows), and the optional
`fake_actions` / `fake_next_actions` attributes (absent unless attached after
construction). -/
structure MinariDataset where
  states : List (List Int)
  actions : List (List Int)
  rewards : List (List Int)
  next_states : List (List Int)
  is_finished : List (List Int)
  fake_actions : Option (List (List Int))
  fake_next_actions : Option (List (List Int))
deriving DecidableEq

/-- `self.len = self.states.shape[0]` set in `__init__`; `__len__` returns it. -/
def MinariDataset.len (m : MinariDataset) : Nat := m.states.length

/-- Construction invariant of `__init__`: all five per-transition tensors come from
the same `d4rl.qlearning_dataset` result and share the leading length, and any
attached fake-action tensors share it as well. -/
def MinariDataset.WF (m : MinariDataset) : Prop :=
  m.actions.length = m.len ∧ m.rewards.length = m.len ∧
  m.next_states.length = m.len ∧ m.is_finished.length = m.len ∧
  (∀ fa, m.fake_actions = some fa → fa.length = m.len) ∧
  (∀ fa, m.fake_next_actions = some fa → fa.length = m.len)

instance (m : MinariDataset) : Decidable m.WF := by
  unfold MinariDataset.WF
  exact inferInstance

/-- `MinariDataset.__getitem__` (minari_dataset.py lines 91-131): every field is
indexed at `index % self.len`; `fake_a`/`fake_a_` fall back to the scalar `0.0` when
the corresponding attribute is absent.  `none` models an indexing error. -/
def MinariDataset.getitem (m : MinariDataset) (index : Nat) : Option Item := do
  let i := index % m.len
  let s ← m.states.get? i
  let a ← m.actions.get? i
  let r ← m.rewards.get? i
  let s_ ← m.next_states.get? i
  let d ← m.is_finished.get? i
  let fake_a ← match m.fake_actions with
    | some fa => (fa.get? i).map ItemVal.tensor
    | Option.none => some ItemVal.scalarZero
  let fake_a_ ← match m.fake_next_actions with
    | some fa => (fa.get? i).map ItemVal.tensor
    | Option.none => some ItemVal.scalarZero
  return { s := s, a := a, r := r, s_ := s_, d := d,
           fake_a := fake_a, fake_a_ := fake_a_ }

/-- The loop state of `MinariDataset.return_range`: accumulated episode returns and
lengths, and the running episode return and length. -/
structure RRState where
  returns : List Int
  lengths : List Nat
  ep_ret : Int
  ep_len : Nat
deriving DecidableEq

/-- One iteration of the `for r, d in zip(...)` loop of `return_range`
(minari_dataset.py lines 143-149). -/
def rrStep (max_episode_steps : Nat) (s : RRState) (rd : Int × Bool) : RRState :=
  if rd.2 || (s.ep_len + 1 == max_episode_steps) then
    { returns := s.returns ++ [s.ep_ret + rd.1], lengths := s.lengths ++ [s.ep_len + 1],
      ep_ret := 0, ep_len := 0 }
  else
    { s with ep_ret := s.ep_ret + rd.1, ep_len := s.ep_len + 1 }

/-- The `lengths` list at the assertion point of `return_range`: the loop's recorded
episode lengths with the final (possibly incomplete) episode length appended
(minari_dataset.py line 151). -/
def return_range_lengths (rewards : List Int) (terminals : List Bool)
    (max_episode_steps : Nat) : List Nat :=
  let final := (rewards.zip terminals).foldl (rrStep max_episode_steps)
    { returns := [], lengths := [], ep_ret := 0, ep_len := 0 }
  final.lengths ++ [final.ep_len]

/-- `MinariDataset.return_range` (minari_dataset.py lines 140-153), with rewards
modelled as integers (only episode structure matters to the verified property):
`none` models the `assert` failure or the `min`/`max`-of-empty error. -/
def return_range (rewards : List Int) (terminals : List Bool)
    (max_episode_steps : Nat) : Option (Int × Int) :=
  let final := (rewards.zip terminals).foldl (rrStep max_episode_steps)
    { returns := [], lengths := [], ep_ret := 0, ep_len := 0 }
  if (return_range_lengths rewards terminals max_episode_steps).sum
      = rewards.length then
    match final.returns.min?, final.returns.max? with
    | some mn, some mx => some (mn, mx)
    | _, _ => Option.none
  else Option.none

/-! ## Helper lemmas -/

lemma length_flatten_replicate (k : Nat) (r : List Int) :
    ((List.replicate k r).flatten).length = k * r.length := by
  induction k with
  | zero => simp
  | succ k ih =>
    rw [List.replicate_succ, List.flatten_cons, List.length_append, ih, Nat.succ_mul]
    omega

lemma flatten_segment (c : Nat) (l : List (List Int))
    (h : ∀ r ∈ l, r.length = c) :
    ∀ j, j < l.length → (l.flatten.drop (j * c)).take c = l.getD j [] := by
  induction l with
  | nil => intro j hj; simp at hj
  | cons x tl ih =>
    intro j hj
    have hx : x.length = c := h x (by simp)
    cases j with
    | zero =>
      simp only [List.flatten_cons, Nat.zero_mul, List.drop_zero, List.getD_cons_zero]
      exact List.take_left' hx
    | succ j =>
      have hdrop : ((x :: tl).flatten).drop ((j + 1) * c) = tl.flatten.drop (j * c) := by
        rw [List.flatten_cons, Nat.succ_mul, Nat.add_comm (j * c) c, ← List.drop_drop,
          List.drop_left' hx]
      rw [hdrop, List.getD_cons_succ]
      exact ih (fun r hr => h r (by simp [hr])) j (by simpa using hj)

lemma segment_within (xs : List Int) (a b c mlen : Nat) (h : b + c ≤ mlen) :
    (((xs.drop a).take mlen).drop b).take c = (xs.drop (a + b)).take c := by
  rw [List.drop_take, List.take_take, List.drop_drop]
  congr 1
  omega

lemma Tensor.row_length (t : Tensor) (n : Nat) (rest : List Nat)
    (hs : t.shape = n :: rest) (hwf : t.WF) (i : Nat) (hi : i < n) :
    (t.row i).length = rest.prod := by
  have hlen : t.data.length = n * rest.prod := by
    rw [hwf, hs, List.prod_cons]
  simp only [Tensor.row, Tensor.rowSize, hs, List.tail_cons]
  rw [List.length_take, List.length_drop, hlen]
  have hle : rest.prod ≤ n * rest.prod - i * rest.prod := by
    rw [← Nat.sub_mul]
    calc rest.prod = 1 * rest.prod := (Nat.one_mul _).symm
    _ ≤ (n - i) * rest.prod := Nat.mul_le_mul_right _ (by omega)
  omega

lemma Tensor.repeatInterleave0_length (t : Tensor) (k n : Nat) (rest : List Nat)
    (hs : t.shape = n :: rest) (hwf : t.WF) :
    (t.repeatInterleave0 k).data.length = n * (k * rest.prod) := by
  simp only [Tensor.repeatInterleave0, hs, List.headD_cons, List.tail_cons]
  rw [List.length_flatten]
  have hall : ∀ x ∈ (List.map List.length (List.map
      (fun i => (List.replicate k (t.row i)).flatten) (List.range n))),
      x = k * rest.prod := by
    intro x hx
    simp only [List.map_map, List.mem_map, List.mem_range, Function.comp] at hx
    obtain ⟨i, hi, rfl⟩ := hx
    rw [length_flatten_replicate, t.row_length n rest hs hwf i hi]
  rw [List.sum_eq_card_nsmul _ _ hall]
  simp [smul_eq_mul]

lemma Tensor.repeatInterleave0_row (t : Tensor) (k n : Nat) (rest : List Nat)
    (hs : t.shape = n :: rest) (hwf : t.WF) (j : Nat) (hj : j < n * k) :
    (t.repeatInterleave0 k).row j = t.row (j / k) := by
  have hk : 0 < k := by
    rcases Nat.eq_zero_or_pos k with h | h
    · subst h; simp at hj
    · exact h
  have hq : j / k < n := by
    rw [Nat.div_lt_iff_lt_mul hk]
    exact hj
  have hm : j % k < k := Nat.mod_lt _ hk
  set s := rest.prod with hsdef
  set B : Nat → List Int := fun i => (List.replicate k (t.row i)).flatten with hB
  have hBlen : ∀ r ∈ (List.range n).map B, r.length = k * s := by
    intro r hr
    simp only [List.mem_map, List.mem_range] at hr
    obtain ⟨i, hi, rfl⟩ := hr
    rw [hB, length_flatten_replicate, t.row_length n rest hs hwf i hi]
  have hlevel1 : ((((List.range n).map B).flatten.drop ((j / k) * (k * s))).take (k * s))
      = B (j / k) := by
    rw [flatten_segment (k * s) _ hBlen (j / k) (by simpa using hq)]
    rw [List.getD_eq_getElem?_getD, List.getElem?_map, List.getElem?_range hq]
    rfl
  have hrowlen : (t.row (j / k)).length = s := t.row_length n rest hs hwf _ hq
  have hlevel2 : ((B (j / k)).drop ((j % k) * s)).take s = t.row (j / k) := by
    have hall : ∀ r ∈ List.replicate k (t.row (j / k)), r.length = s := by
      intro r hr
      rw [List.eq_of_mem_replicate hr, hrowlen]
    rw [hB]
    rw [flatten_segment s _ hall (j % k) (by simpa using hm)]
    rw [List.getD_eq_getElem?_getD, List.getElem?_replicate, if_pos hm]
    rfl
  have harith : j * s = (j / k) * (k * s) + (j % k) * s := by
    conv_lhs => rw [← Nat.div_add_mod j k]
    ring
  have hsub : (j % k) * s + s ≤ k * s := by
    calc (j % k) * s + s = (j % k + 1) * s := by ring
    _ ≤ k * s := Nat.mul_le_mul_right _ (by omega)
  have hdata : (t.repeatInterleave0 k).data = (((List.range n).map B)).flatten := by
    rw [hB]
    simp only [Tensor.repeatInterleave0, hs, List.headD_cons, List.tail_cons]
  have hrs : (t.repeatInterleave0 k).rowSize = s := by
    simp only [Tensor.rowSize, Tensor.repeatInterleave0, hs, List.tail_cons, hsdef]
  have hrow : (t.repeatInterleave0 k).row j
      = ((((List.range n).map B).flatten).drop (j * s)).take s := by
    simp only [Tensor.row]
    rw [hdata, hrs]
  rw [hrow, harith, ← segment_within _ _ _ _ _ hsub, hlevel1, hlevel2]

lemma rr_invariant (M : Nat) (l : List (Int × Bool)) :
    ∀ s : RRState,
      (l.foldl (rrStep M) s).lengths.sum + (l.foldl (rrStep M) s).ep_len
        = s.lengths.sum + s.ep_len + l.length := by
  induction l with
  | nil => intro s; simp
  | cons hd tl ih =>
    intro s
    rw [List.foldl_cons, ih (rrStep M s hd), List.length_cons]
    unfold rrStep
    cases hcond : (hd.2 || (s.ep_len + 1 == M)) with
    | false => simp [hcond]; omega
    | true => simp [hcond, List.sum_append]; omega

/-- Inversion of a successful `prepare`: every stage succeeded, the solver resolved
to `ODESolver` (the only family that reaches `integrate` on `FlowModel`), and the
produced context is fully determined by the stages. -/
lemma prepare_ok_elim {m : FlowModel} {g : Nat → Tensor} {t_span : List Int}
    {bs : BatchSizeArg} {x_0 cond : Option Tensor} {wg : Bool}
    {sc : Option SolverKind} {ctx : PrepCtx}
    (hp : prepare m g t_span bs x_0 cond wg sc = .ok ctx) :
    normalize_extra_batch_size bs = .ok ctx.extra_batch_size ∧
    infer_data_batch_size x_0 cond = .ok ctx.data_batch_size ∧
    select_solver m sc = .ok .odeSolver ∧
    build_x m g ctx.extra_batch_size.data.prod ctx.data_batch_size x_0
      = .ok ctx.call.x0 ∧
    ctx.call = { kind := .odeSolver, x0 := ctx.call.x0, tSpan := t_span,
                 noGradContext := !wg, adjointParams := some m.params,
                 condition := cond.map
                   (fun c => c.repeatInterleave0 ctx.extra_batch_size.data.prod) } := by
  unfold prepare at hp
  cases h1 : normalize_extra_batch_size bs with
  | error e => rw [h1] at hp; simp at hp
  | ok ebs =>
    rw [h1] at hp; dsimp only at hp
    cases h2 : infer_data_batch_size x_0 cond with
    | error e => rw [h2] at hp; simp at hp
    | ok dbs =>
      rw [h2] at hp; dsimp only at hp
      cases h3 : select_solver m sc with
      | error e => rw [h3] at hp; simp at hp
      | ok solver =>
        rw [h3] at hp; dsimp only at hp
        cases h4 : build_x m g ebs.data.prod dbs x_0 with
        | error e => rw [h4] at hp; simp at hp
        | ok x =>
          rw [h4] at hp; dsimp only at hp
          cases solver with
          | odeSolver =>
            simp only [Except.ok.injEq] at hp
            subst hp
            exact ⟨rfl, rfl, rfl, by simpa using h4, rfl⟩
          | dictTensorODESolver => simp at hp
          | other => simp at hp

lemma get?_eq_some_getD (l : List (List Int)) (i : Nat) (h : i < l.length) :
    l.get? i = some (l.getD i []) := by
  rw [List.get?_eq_getElem?, List.getD_eq_getElem?_getD, List.getElem?_eq_getElem h]
  rfl

/-! ## Witness fixtures: a concrete model, Gaussian sampler and integrator -/

/-- A concrete `FlowModel` with `x_size = 2`, a default `ODESolver`, and one model
parameter, used by the closed witness theorems. -/
def mW : FlowModel := { x_size := .int 2, solver := some .odeSolver, params := [7] }

/-- A concrete Gaussian sampler honouring the sampler contract for `x_size = 2`
(values fixed at 0; only shapes matter to the verified properties). -/
def gW : Nat → Tensor := fun b => { shape := [b, 2], data := List.replicate (b * 2) 0 }

/-- A concrete integrator honouring the integrator contract: the output trajectory
stacks `len(t_span)` copies of the initial state. -/
def fW : IntegrateCall → Tensor := fun c =>
  { shape := c.tSpan.length :: c.x0.shape,
    data := (List.replicate c.tSpan.length c.x0.data).flatten }

lemma fW_length (c : IntegrateCall) :
    (fW c).data.length = c.tSpan.length * c.x0.data.length := by
  simp only [fW]
  exact length_flatten_replicate _ _

/-! ## Claims -/

/-- C8: for every sequence of rewards and terminal flags (of equal length, as zipped
by `return_range`), splitting into episodes at `terminal = True` or every
`max_episode_steps` ticks and keeping the final incomplete episode's length, the sum
of all recorded episode lengths equals the length of the reward sequence — the
assertion inside `MinariDataset.return_range` always holds. -/
theorem minari_return_range_lengths_sum (rewards : List Int) (terminals : List Bool)
    (M : Nat) (hlen : rewards.length = terminals.length) :
    (return_range_lengths rewards terminals M).sum = rewards.length := by
  have h := rr_invariant M (rewards.zip terminals)
    { returns := [], lengths := [], ep_ret := 0, ep_len := 0 }
  rw [List.length_zip, ← hlen, min_self] at h
  simp only [return_range_lengths, List.sum_append, List.sum_cons, List.sum_nil]
  simp only [List.sum_nil] at h
  omega

/-- Witness for C8 at a concrete input. -/
theorem minari_return_range_lengths_sum_witness :
    ([1, 2, 3, 4, 5] : List Int).length = ([false, true, false, false, false] : List Bool).length ∧
    (return_range_lengths [1, 2, 3, 4, 5] [false, true, false, false, false] 2).sum
      = ([1, 2, 3, 4, 5] : List Int).length :=
  ⟨by decide, minari_return_range_lengths_sum [1, 2, 3, 4, 5]
    [false, true, false, false, false] 2 (by decide)⟩

/-- C10: for every well-formed non-empty `MinariDataset` and every non-negative
index — including indices at or beyond `len(dataset)` — `__getitem__` succeeds and
returns the entry at position `index % len` of every field; when fake actions were
never attached, the `fake_a` and `fake_a_` entries are the scalar `0.0`. -/
theorem minari_getitem_mod_len (m : MinariDataset) (index : Nat)
    (hwf : m.WF) (hpos : 0 < m.len) :
    m.getitem index = some
      { s := m.states.getD (index % m.len) [],
        a := m.actions.getD (index % m.len) [],
        r := m.rewards.getD (index % m.len) [],
        s_ := m.next_states.getD (index % m.len) [],
        d := m.is_finished.getD (index % m.len) [],
        fake_a := match m.fake_actions with
          | some fa => ItemVal.tensor (fa.getD (index % m.len) [])
          | Option.none => ItemVal.scalarZero,
        fake_a_ := match m.fake_next_actions with
          | some fa => ItemVal.tensor (fa.getD (index % m.len) [])
          | Option.none => ItemVal.scalarZero } := by
  obtain ⟨ha, hr, hn, hd, hfa, hfa'⟩ := hwf
  have hi : index % m.len < m.len := Nat.mod_lt _ hpos
  have hs := get?_eq_some_getD m.states (index % m.len) hi
  have ha' := get?_eq_some_getD m.actions (index % m.len) (ha ▸ hi)
  have hr' := get?_eq_some_getD m.rewards (index % m.len) (hr ▸ hi)
  have hn' := get?_eq_some_getD m.next_states (index % m.len) (hn ▸ hi)
  have hd' := get?_eq_some_getD m.is_finished (index % m.len) (hd ▸ hi)
  cases hA : m.fake_actions with
  | none =>
    cases hB : m.fake_next_actions with
    | none =>
      simp only [MinariDataset.getitem, hA, hB, hs, ha', hr', hn', hd',
        Option.some_bind]
      rfl
    | some fb =>
      have hb := get?_eq_some_getD fb (index % m.len) ((hfa' fb hB) ▸ hi)
      simp only [MinariDataset.getitem, hA, hB, hs, ha', hr', hn', hd', hb,
        Option.map_some', Option.some_bind]
      rfl
  | some fa =>
    have hfa2 := get?_eq_some_getD fa (index % m.len) ((hfa fa hA) ▸ hi)
    cases hB : m.fake_next_actions with
    | none =>
      simp only [MinariDataset.getitem, hA, hB, hs, ha', hr', hn', hd', hfa2,
        Option.map_some', Option.some_bind]
      rfl
    | some fb =>
      have hb := get?_eq_some_getD fb (index % m.len) ((hfa' fb hB) ▸ hi)
      simp only [MinariDataset.getitem, hA, hB, hs, ha', hr', hn', hd', hfa2, hb,
        Option.map_some', Option.some_bind]
      rfl

/-- C9: after normalization the extra-batch-size value is always a rank-1 tensor —
for absent, int and sequence batch-size arguments alike — so the
`len(extra_batch_size.shape) == 0` reshape branch of the inverse composition is
unreachable and the rank-1 reshape branch is always taken: `postprocess` coincides
with its rank-1-only variant on every input. -/
theorem flow_extra_batch_size_always_rank_one (bs : BatchSizeArg) (ebs : NatTensor)
    (m : FlowModel) (x0None condNone : Bool) (dbs : Nat) (d : Tensor)
    (hn : normalize_extra_batch_size bs = .ok ebs) :
    ebs.shape.length = 1 ∧
    postprocess m bs x0None condNone ebs dbs d
      = postprocessAlwaysRankOne m bs x0None condNone ebs dbs d := by
  cases bs with
  | none =>
    simp only [normalize_extra_batch_size, Except.ok.injEq] at hn
    subst hn
    exact ⟨rfl, by simp [postprocess, postprocessAlwaysRankOne]⟩
  | int b =>
    simp only [normalize_extra_batch_size, Except.ok.injEq] at hn
    subst hn
    exact ⟨rfl, by simp [postprocess, postprocessAlwaysRankOne]⟩
  | seq l =>
    simp only [normalize_extra_batch_size, Except.ok.injEq] at hn
    subst hn
    exact ⟨rfl, by simp [postprocess, postprocessAlwaysRankOne]⟩
  | invalid => simp [normalize_extra_batch_size] at hn

/-- Witness for C9 at the concrete batch-size argument `3`. -/
theorem flow_extra_batch_size_always_rank_one_witness :
    normalize_extra_batch_size (.int 3)
      = .ok { shape := [1], data := [3] } ∧
    NatTensor.shape { shape := [1], data := [3] } = [1] ∧
    postprocess mW (.int 3) true true { shape := [1], data := [3] } 1
        { shape := [6], data := List.replicate 6 0 }
      = postprocessAlwaysRankOne mW (.int 3) true true { shape := [1], data := [3] } 1
        { shape := [6], data := List.replicate 6 0 } :=
  ⟨by decide, by decide,
    (flow_extra_batch_size_always_rank_one (.int 3) { shape := [1], data := [3] } mW
      true true 1 { shape := [6], data := List.replicate 6 0 } (by decide)).2⟩

/-- C7: `sample(...)` returns exactly the element at the last time index of the
trajectory returned by `sample_forward_process(...)` called with the same
arguments. -/
theorem flow_sample_is_last_time_slice
    (m : FlowModel) (g : Nat → Tensor) (f : IntegrateCall → Tensor)
    (t_span : List Int) (bs : BatchSizeArg) (x_0 cond : Option Tensor)
    (wg : Bool) (sc : Option SolverKind) (d : Tensor) (T : Nat) (rest : List Nat)
    (hsfp : sample_forward_process m g f t_span bs x_0 cond wg sc = .ok d)
    (hshape : d.shape = T :: rest) :
    sample m g f t_span bs x_0 cond wg sc = .ok (d.timeSlice (T - 1)) := by
  unfold sample
  rw [hsfp]
  obtain ⟨sh, da⟩ := d
  simp only at hshape
  subst hshape
  simp [Tensor.lastTime, Tensor.timeSlice]

/-- Witness for C7 at a concrete two-step time span. -/
theorem flow_sample_is_last_time_slice_witness :
    sample_forward_process mW gW fW [0, 1] .none Option.none Option.none false
        Option.none = .ok { shape := [2, 2], data := [0, 0, 0, 0] } ∧
    Tensor.shape { shape := [2, 2], data := [0, 0, 0, 0] } = 2 :: [2] ∧
    sample mW gW fW [0, 1] .none Option.none Option.none false Option.none
      = .ok (Tensor.timeSlice { shape := [2, 2], data := [0, 0, 0, 0] } (2 - 1)) :=
  ⟨by decide, by decide,
    flow_sample_is_last_time_slice mW gW fW [0, 1] .none Option.none Option.none
      false Option.none { shape := [2, 2], data := [0, 0, 0, 0] } 2 [2]
      (by decide) (by decide)⟩

/-- Inverse composition, regime (a): no batch size, no `x_0`, no condition — both
singleton axes squeezed. -/
lemma postprocess_shape_regime_a (m : FlowModel) (D T : Nat) (d : Tensor)
    (hx : m.x_size = .int D) (hD : 0 < D) (hlen : d.data.length = T * D) :
    (postprocess m .none true true ⟨[1], [1]⟩ 1 d).shape = [T, D] := by
  have hdiv : d.data.length / D = T := by
    rw [hlen]
    exact Nat.mul_div_cancel T hD
  simp [postprocess, hx, Tensor.reshapeRest, Tensor.squeezeDim, List.prod_cons,
    List.prod_nil, List.getD, List.eraseIdx, hdiv]

/-- Inverse composition, regime (b): no batch size, data batch present (`x_0` or
`condition` supplied) — only the singleton extra-batch axis squeezed. -/
lemma postprocess_shape_regime_b (m : FlowModel) (D T N : Nat) (d : Tensor)
    (a b : Bool) (hab : (a && b) = false)
    (hx : m.x_size = .int D) (hD : 0 < D) (hN : 0 < N)
    (hlen : d.data.length = T * (N * D)) :
    (postprocess m .none a b ⟨[1], [1]⟩ N d).shape = [T, N, D] := by
  have hdiv : d.data.length / (N * D) = T := by
    rw [hlen]
    exact Nat.mul_div_cancel T (Nat.mul_pos hN hD)
  simp [postprocess, hx, hab, Tensor.reshapeRest, Tensor.squeezeDim, List.prod_cons,
    List.prod_nil, List.getD, List.eraseIdx, hdiv]

/-- Inverse composition, regime (c): explicit int batch size, no `x_0`/`condition` —
the singleton data-batch axis (axis 2) squeezed. -/
lemma postprocess_shape_regime_c (m : FlowModel) (D T B : Nat) (d : Tensor)
    (hx : m.x_size = .int D) (hD : 0 < D) (hB : 0 < B)
    (hlen : d.data.length = T * (B * D)) :
    (postprocess m (.int B) true true ⟨[1], [B]⟩ 1 d).shape = [T, B, D] := by
  have hdiv : d.data.length / (B * D) = T := by
    rw [hlen]
    exact Nat.mul_div_cancel T (Nat.mul_pos hB hD)
  simp [postprocess, hx, Tensor.reshapeRest, Tensor.squeezeDim, List.prod_cons,
    List.prod_nil, List.getD, List.eraseIdx, hdiv]

/-- Inverse composition, regime (d): explicit int batch size and data batch present —
nothing squeezed. -/
lemma postprocess_shape_regime_d (m : FlowModel) (D T N B : Nat) (d : Tensor)
    (a b : Bool) (hab : (a && b) = false)
    (hx : m.x_size = .int D) (hD : 0 < D) (hN : 0 < N) (hB : 0 < B)
    (hlen : d.data.length = T * (B * (N * D))) :
    (postprocess m (.int B) a b ⟨[1], [B]⟩ N d).shape = [T, B, N, D] := by
  have hdiv : d.data.length / (B * (N * D)) = T := by
    rw [hlen]
    exact Nat.mul_div_cancel T (Nat.mul_pos hB (Nat.mul_pos hN hD))
  simp [postprocess, hx, hab, Tensor.reshapeRest, List.prod_cons,
    List.prod_nil, hdiv]

/-- `normalize_extra_batch_size` succeeds on every batch-size argument of a valid
type. -/
lemma normalize_ok_of_valid (bs : BatchSizeArg) (hbs : bs ≠ .invalid) :
    ∃ ebs, normalize_extra_batch_size bs = .ok ebs := by
  cases bs with
  | none => exact ⟨_, rfl⟩
  | int b => exact ⟨_, rfl⟩
  | seq l => exact ⟨_, rfl⟩
  | invalid => exact absurd rfl hbs

/-- C5: `data_batch_size` is the leading size of `x_0` when given (with or without a
condition), else of `condition` when given, else 1 — all four inference branches of
flow.py lines 124-134 pinned; and when `x_0` and `condition` are both given with
unequal leading sizes, the call fails with the batch-mismatch assertion already in
`prepare` — before any integration (the integrator `f` is not even an argument of
`prepare`) — never silently truncating either input. -/
theorem flow_data_batch_size_and_mismatch
    (m : FlowModel) (g : Nat → Tensor) (f : IntegrateCall → Tensor)
    (t_span : List Int) (bs : BatchSizeArg) (x0 cond x0' cond' : Tensor)
    (wg : Bool) (sc : Option SolverKind) (ctx1 ctx2 ctx3 ctx4 : PrepCtx)
    (hbs : bs ≠ .invalid)
    (hne : x0.shape.headD 0 ≠ cond.shape.headD 0)
    (hp1 : prepare m g t_span bs (some x0') (some cond') wg sc = .ok ctx1)
    (hp2 : prepare m g t_span bs Option.none (some cond') wg sc = .ok ctx2)
    (hp3 : prepare m g t_span bs Option.none Option.none wg sc = .ok ctx3)
    (hp4 : prepare m g t_span bs (some x0') Option.none wg sc = .ok ctx4) :
    prepare m g t_span bs (some x0) (some cond) wg sc = .error .batchMismatch ∧
    sample_forward_process m g f t_span bs (some x0) (some cond) wg sc
      = .error .batchMismatch ∧
    ctx1.data_batch_size = x0'.shape.headD 0 ∧
    ctx4.data_batch_size = x0'.shape.headD 0 ∧
    ctx2.data_batch_size = cond'.shape.headD 0 ∧
    ctx3.data_batch_size = 1 := by
  obtain ⟨ebs, hebs⟩ := normalize_ok_of_valid bs hbs
  have hinfer : infer_data_batch_size (some x0) (some cond)
      = .error .batchMismatch := by
    simp only [infer_data_batch_size, if_neg hne]
  have hprep : prepare m g t_span bs (some x0) (some cond) wg sc
      = .error .batchMismatch := by
    unfold prepare
    rw [hebs]
    dsimp only
    rw [hinfer]
  refine ⟨hprep, ?_, ?_, ?_, ?_, ?_⟩
  · unfold sample_forward_process
    rw [hprep]
  · have h2 := (prepare_ok_elim hp1).2.1
    simp only [infer_data_batch_size] at h2
    by_cases hc : x0'.shape.headD 0 = cond'.shape.headD 0
    · rw [if_pos hc] at h2
      exact (Except.ok.inj h2).symm
    · rw [if_neg hc] at h2
      exact Except.noConfusion h2
  · have h2 := (prepare_ok_elim hp4).2.1
    simp only [infer_data_batch_size] at h2
    exact (Except.ok.inj h2).symm
  · have h2 := (prepare_ok_elim hp2).2.1
    simp only [infer_data_batch_size] at h2
    exact (Except.ok.inj h2).symm
  · have h2 := (prepare_ok_elim hp3).2.1
    simp only [infer_data_batch_size] at h2
    exact (Except.ok.inj h2).symm

/-- Concrete tensors for the C5 witness: `x0mis`/`condMis` have mismatching leading
sizes 2 and 3; `x0ok`/`condOk` agree on leading size 1. -/
def x0mis : Tensor := { shape := [2, 2], data := [1, 2, 3, 4] }

def condMis : Tensor := { shape := [3], data := [1, 2, 3] }

def x0ok : Tensor := { shape := [1, 2], data := [5, 6] }

def condOk : Tensor := { shape := [1], data := [9] }

/-- The context `prepare` builds for `(x0ok, condOk)` under `mW`/`gW`. -/
def ctxW1 : PrepCtx :=
  ⟨⟨[1], [1]⟩, 1, ⟨.odeSolver, ⟨[1, 2], [5, 6]⟩, [0], true, some [7], some ⟨[1], [9]⟩⟩⟩

/-- The context `prepare` builds for `(no x_0, condOk)` under `mW`/`gW`. -/
def ctxW2 : PrepCtx :=
  ⟨⟨[1], [1]⟩, 1, ⟨.odeSolver, ⟨[1, 2], [0, 0]⟩, [0], true, some [7], some ⟨[1], [9]⟩⟩⟩

/-- The context `prepare` builds with neither `x_0` nor `condition` under `mW`/`gW`. -/
def ctxW3 : PrepCtx :=
  ⟨⟨[1], [1]⟩, 1, ⟨.odeSolver, ⟨[1, 2], [0, 0]⟩, [0], true, some [7], Option.none⟩⟩

/-- The context `prepare` builds for `(x0ok, no condition)` under `mW`/`gW`. -/
def ctxW5 : PrepCtx :=
  ⟨⟨[1], [1]⟩, 1, ⟨.odeSolver, ⟨[1, 2], [5, 6]⟩, [0], true, some [7], Option.none⟩⟩

/-- Witness for C5 at concrete mismatching and matching inputs, covering all four
`data_batch_size` inference branches. -/
theorem flow_data_batch_size_and_mismatch_witness :
    (BatchSizeArg.none ≠ BatchSizeArg.invalid) ∧
    (x0mis.shape.headD 0 ≠ condMis.shape.headD 0) ∧
    prepare mW gW [0] .none (some x0ok) (some condOk) false Option.none = .ok ctxW1 ∧
    prepare mW gW [0] .none Option.none (some condOk) false Option.none = .ok ctxW2 ∧
    prepare mW gW [0] .none Option.none Option.none false Option.none = .ok ctxW3 ∧
    prepare mW gW [0] .none (some x0ok) Option.none false Option.none = .ok ctxW5 ∧
    (prepare mW gW [0] .none (some x0mis) (some condMis) false Option.none
        = .error .batchMismatch ∧
      sample_forward_process mW gW fW [0] .none (some x0mis) (some condMis) false
        Option.none = .error .batchMismatch ∧
      ctxW1.data_batch_size = x0ok.shape.headD 0 ∧
      ctxW5.data_batch_size = x0ok.shape.headD 0 ∧
      ctxW2.data_batch_size = condOk.shape.headD 0 ∧
      ctxW3.data_batch_size = 1) :=
  ⟨by decide, by decide, by decide, by decide, by decide, by decide,
    flow_data_batch_size_and_mismatch mW gW fW [0] .none x0mis condMis x0ok condOk
      false Option.none ctxW1 ctxW2 ctxW3 ctxW5 (by decide) (by decide) (by decide)
      (by decide) (by decide) (by decide)⟩

/-- C6: with `solver_config = None` on a model whose construction config had no
default solver, the call fails with the "no solver" assertion already in `prepare`,
before any integration work; when `solver_config` is given it overrides the
model-level default for that call (here `m'` may carry any default, yet the built
integrate call uses the per-call solver kind). -/
theorem flow_no_solver_error_and_override
    (m m' : FlowModel) (g : Nat → Tensor) (f : IntegrateCall → Tensor)
    (t_span : List Int) (bs : BatchSizeArg) (x_0 cond : Option Tensor)
    (wg : Bool) (dbs : Nat) (sk : SolverKind) (ctx : PrepCtx)
    (hns : m.solver = Option.none)
    (hbs : bs ≠ .invalid)
    (hdbs : infer_data_batch_size x_0 cond = .ok dbs)
    (hp : prepare m' g t_span bs x_0 cond wg (some sk) = .ok ctx) :
    prepare m g t_span bs x_0 cond wg Option.none = .error .noSolver ∧
    sample_forward_process m g f t_span bs x_0 cond wg Option.none
      = .error .noSolver ∧
    ctx.call.kind = sk := by
  obtain ⟨ebs, hebs⟩ := normalize_ok_of_valid bs hbs
  have hsel : select_solver m Option.none = .error .noSolver := by
    simp [select_solver, hns]
  have hprep : prepare m g t_span bs x_0 cond wg Option.none
      = .error .noSolver := by
    unfold prepare
    rw [hebs]
    dsimp only
    rw [hdbs]
    dsimp only
    rw [hsel]
  refine ⟨hprep, ?_, ?_⟩
  · unfold sample_forward_process
    rw [hprep]
  · have h3 := (prepare_ok_elim hp).2.2.1
    have h5 := (prepare_ok_elim hp).2.2.2.2
    simp only [select_solver] at h3
    rw [h5]
    exact (Except.ok.inj h3).symm

/-- A model whose construction config had no solver, for the C6 witness. -/
def mNoSolver : FlowModel := { x_size := .int 2, solver := Option.none, params := [7] }

/-- A model whose default solver is of an unsupported kind, for the C6 witness: the
per-call override must win over it. -/
def mOther : FlowModel := { x_size := .int 2, solver := some .other, params := [7] }

/-- Witness for C6: `mNoSolver` with no per-call solver fails with the no-solver
error; `mOther` (whose default alone would be unusable) with per-call override
`ODESolver` builds its integrate call with the overriding solver kind. -/
theorem flow_no_solver_error_and_override_witness :
    mNoSolver.solver = Option.none ∧
    (BatchSizeArg.none ≠ BatchSizeArg.invalid) ∧
    infer_data_batch_size Option.none Option.none = .ok 1 ∧
    prepare mOther gW [0] .none Option.none Option.none false (some .odeSolver)
      = .ok ctxW3 ∧
    (prepare mNoSolver gW [0] .none Option.none Option.none false Option.none
        = .error .noSolver ∧
      sample_forward_process mNoSolver gW fW [0] .none Option.none Option.none false
        Option.none = .error .noSolver ∧
      ctxW3.call.kind = .odeSolver) :=
  ⟨by decide, by decide, by decide, by decide,
    flow_no_solver_error_and_override mNoSolver mOther gW fW [0] .none Option.none
      Option.none false 1 .odeSolver ctxW3 (by decide) (by decide) (by decide)
      (by decide)⟩

/-- A model whose default solver is the `DictTensorODESolver`, for the C3 failing
input. -/
def mDict : FlowModel := { x_size := .int 2, solver := some .dictTensorODESolver, params := [7] }

/-- The context `prepare` builds for the gradient-tracked `ODESolver` call of the C3
theorem: `noGradContext = false` and the full parameter list is attached. -/
def ctxGrad : PrepCtx :=
  ⟨⟨[1], [1]⟩, 1, ⟨.odeSolver, ⟨[1, 2], [0, 0]⟩, [0], false, some [7], Option.none⟩⟩

/-- C3 (code bug, evaluated at the failing input): with `with_grad=True` the
direct-drift `ODESolver` path does attach the model's full parameter list
(`adjoint_params = find_parameters(self.model)`) outside any no-grad context, but
the structured `DictTensorODESolver` path never reaches `solver.integrate` at all:
it evaluates `self.diffusion_process`, an attribute `FlowModel.__init__` never sets,
and raises `AttributeError` — and the `integrate` call it would make passes no
parameter list. -/
theorem flow_dict_solver_path_attribute_error :
    prepare mW gW [0] .none Option.none Option.none true Option.none = .ok ctxGrad ∧
    ctxGrad.call.adjointParams = some mW.params ∧
    ctxGrad.call.noGradContext = false ∧
    sample_forward_process mDict gW fW [0] .none Option.none Option.none true
      Option.none = .error .attributeError := by
  refine ⟨by decide, by decide, by decide, by decide⟩

/-- C2 (code bug, evaluated at the failing input): with `batch_size = (2, 3)` and
neither `x_0` nor `condition`, the claimed output shape is `(T, 2, 3, D)` — the
data-batch axis squeezed, the extra-batch shape kept — but the code squeezes axis
`1 + len(extra_batch_size.shape)`, which is always axis 2 because the normalized
extra-batch tensor is always rank 1; axis 2 holds the extra-batch dimension 3, so
the squeeze is a no-op and the singleton data-batch axis survives:
the output shape is `(1, 2, 3, 1, 2)` instead of `(1, 2, 3, 2)`. -/
theorem flow_squeeze_misses_data_axis_for_multidim_batch :
    resultShape (sample_forward_process mW gW fW [0] (.seq [2, 3]) Option.none
      Option.none false Option.none) = some [1, 2, 3, 1, 2] ∧
    resultShape (sample_forward_process mW gW fW [0] (.seq [2, 3]) Option.none
      Option.none false Option.none) ≠ some [1, 2, 3, 2] := by
  refine ⟨by decide, by decide⟩

/-- C1: for `state_shape = (D,)` and a time span of `T` steps, under the integrator
contract (`integrate` returns a `(T, *x0.shape)` trajectory) and the sampler contract
(`gaussian b` has shape `(b, D)`), `sample_forward_process` returns shape `(T, D)`
with no batch size, no `x_0` and no condition; `(T, N, D)` with no batch size and an
`x_0` (or a condition) with `N` rows; `(T, B, D)` with `batch_size = B` and neither
`x_0` nor condition; and `(T, B, N, D)` with `batch_size = B` and an `x_0` with `N`
rows. -/
theorem flow_sample_forward_process_shape_regimes
    (m : FlowModel) (g : Nat → Tensor) (f : IntegrateCall → Tensor)
    (t_span : List Int) (wg : Bool) (D N B : Nat) (x0 cond : Tensor)
    (hx : m.x_size = .int D) (hD : 0 < D) (hN : 0 < N) (hB : 0 < B)
    (hg : ∀ bsz, (g bsz).shape = [bsz, D] ∧ (g bsz).data.length = bsz * D)
    (hf : ∀ c, (f c).shape = c.tSpan.length :: c.x0.shape ∧
      (f c).data.length = c.tSpan.length * c.x0.data.length)
    (hx0 : x0.shape = [N, D]) (hwx : x0.WF)
    (hcond : cond.shape.headD 0 = N) :
    resultShape (sample_forward_process m g f t_span .none Option.none Option.none
      wg (some .odeSolver)) = some [t_span.length, D] ∧
    resultShape (sample_forward_process m g f t_span .none (some x0) Option.none
      wg (some .odeSolver)) = some [t_span.length, N, D] ∧
    resultShape (sample_forward_process m g f t_span .none Option.none (some cond)
      wg (some .odeSolver)) = some [t_span.length, N, D] ∧
    resultShape (sample_forward_process m g f t_span (.int B) Option.none
      Option.none wg (some .odeSolver)) = some [t_span.length, B, D] ∧
    resultShape (sample_forward_process m g f t_span (.int B) (some x0)
      Option.none wg (some .odeSolver)) = some [t_span.length, B, N, D] := by
  have hxtail : x0.shape.tail = [D] := by rw [hx0]; rfl
  have hxhead : x0.shape.headD 0 = N := by rw [hx0]; rfl
  have hxhead' : x0.shape.head?.getD 0 = N := by rw [hx0]; rfl
  have hcond' : cond.shape.head?.getD 0 = N := by
    rw [← List.headD_eq_head?_getD]
    exact hcond
  have hprodD : List.prod [D] = D := by simp
  refine ⟨?_, ?_, ?_, ?_, ?_⟩
  -- regime (a): no batch size, no x_0, no condition
  · have hprep : prepare m g t_span .none Option.none Option.none wg
        (some .odeSolver) = .ok ⟨⟨[1], [1]⟩, 1,
          ⟨.odeSolver, g 1, t_span, !wg, some m.params, Option.none⟩⟩ := rfl
    have hsfp : sample_forward_process m g f t_span .none Option.none Option.none wg
        (some .odeSolver) = .ok (postprocess m .none true true ⟨[1], [1]⟩ 1
          (f ⟨.odeSolver, g 1, t_span, !wg, some m.params, Option.none⟩)) := by
      unfold sample_forward_process
      rw [hprep]
      rfl
    have hlen : (f ⟨.odeSolver, g 1, t_span, !wg, some m.params,
        Option.none⟩).data.length = t_span.length * D := by
      rw [(hf _).2]
      dsimp only
      rw [(hg 1).2, one_mul]
    rw [hsfp]
    simp only [resultShape]
    rw [postprocess_shape_regime_a m D t_span.length _ hx hD hlen]
  -- regime (b1): no batch size, x_0 with N rows
  · have hprep : prepare m g t_span .none (some x0) Option.none wg
        (some .odeSolver) = .ok ⟨⟨[1], [1]⟩, N,
          ⟨.odeSolver, x0.repeatInterleave0 1, t_span, !wg, some m.params,
            Option.none⟩⟩ := by
      simp [prepare, normalize_extra_batch_size, infer_data_batch_size,
        select_solver, build_x, hx, hxtail, hxhead, hxhead']
    have hsfp : sample_forward_process m g f t_span .none (some x0) Option.none wg
        (some .odeSolver) = .ok (postprocess m .none false true ⟨[1], [1]⟩ N
          (f ⟨.odeSolver, x0.repeatInterleave0 1, t_span, !wg, some m.params,
            Option.none⟩)) := by
      unfold sample_forward_process
      rw [hprep]
      rfl
    have hlen : (f ⟨.odeSolver, x0.repeatInterleave0 1, t_span, !wg, some m.params,
        Option.none⟩).data.length = t_span.length * (N * D) := by
      rw [(hf _).2]
      dsimp only
      rw [x0.repeatInterleave0_length 1 N [D] hx0 hwx, hprodD, one_mul]
    rw [hsfp]
    simp only [resultShape]
    rw [postprocess_shape_regime_b m D t_span.length N _ false true rfl hx hD hN hlen]
  -- regime (b2): no batch size, condition with N rows
  · have hprep : prepare m g t_span .none Option.none (some cond) wg
        (some .odeSolver) = .ok ⟨⟨[1], [1]⟩, N,
          ⟨.odeSolver, g N, t_span, !wg, some m.params,
            some (cond.repeatInterleave0 1)⟩⟩ := by
      simp [prepare, normalize_extra_batch_size, infer_data_batch_size,
        select_solver, build_x, hcond, hcond']
    have hsfp : sample_forward_process m g f t_span .none Option.none (some cond) wg
        (some .odeSolver) = .ok (postprocess m .none true false ⟨[1], [1]⟩ N
          (f ⟨.odeSolver, g N, t_span, !wg, some m.params,
            some (cond.repeatInterleave0 1)⟩)) := by
      unfold sample_forward_process
      rw [hprep]
      rfl
    have hlen : (f ⟨.odeSolver, g N, t_span, !wg, some m.params,
        some (cond.repeatInterleave0 1)⟩).data.length
          = t_span.length * (N * D) := by
      rw [(hf _).2]
      dsimp only
      rw [(hg N).2]
    rw [hsfp]
    simp only [resultShape]
    rw [postprocess_shape_regime_b m D t_span.length N _ true false rfl hx hD hN hlen]
  -- regime (c): batch_size = B, no x_0, no condition
  · have hprep : prepare m g t_span (.int B) Option.none Option.none wg
        (some .odeSolver) = .ok ⟨⟨[1], [B]⟩, 1,
          ⟨.odeSolver, g B, t_span, !wg, some m.params, Option.none⟩⟩ := by
      simp [prepare, normalize_extra_batch_size, infer_data_batch_size,
        select_solver, build_x]
    have hsfp : sample_forward_process m g f t_span (.int B) Option.none Option.none
        wg (some .odeSolver) = .ok (postprocess m (.int B) true true ⟨[1], [B]⟩ 1
          (f ⟨.odeSolver, g B, t_span, !wg, some m.params, Option.none⟩)) := by
      unfold sample_forward_process
      rw [hprep]
      rfl
    have hlen : (f ⟨.odeSolver, g B, t_span, !wg, some m.params,
        Option.none⟩).data.length = t_span.length * (B * D) := by
      rw [(hf _).2]
      dsimp only
      rw [(hg B).2]
    rw [hsfp]
    simp only [resultShape]
    rw [postprocess_shape_regime_c m D t_span.length B _ hx hD hB hlen]
  -- regime (d): batch_size = B, x_0 with N rows
  · have hprep : prepare m g t_span (.int B) (some x0) Option.none wg
        (some .odeSolver) = .ok ⟨⟨[1], [B]⟩, N,
          ⟨.odeSolver, x0.repeatInterleave0 B, t_span, !wg, some m.params,
            Option.none⟩⟩ := by
      simp [prepare, normalize_extra_batch_size, infer_data_batch_size,
        select_solver, build_x, hx, hxtail, hxhead, hxhead']
    have hsfp : sample_forward_process m g f t_span (.int B) (some x0) Option.none
        wg (some .odeSolver) = .ok (postprocess m (.int B) false true ⟨[1], [B]⟩ N
          (f ⟨.odeSolver, x0.repeatInterleave0 B, t_span, !wg, some m.params,
            Option.none⟩)) := by
      unfold sample_forward_process
      rw [hprep]
      rfl
    have hlen : (f ⟨.odeSolver, x0.repeatInterleave0 B, t_span, !wg, some m.params,
        Option.none⟩).data.length = t_span.length * (B * (N * D)) := by
      rw [(hf _).2]
      dsimp only
      rw [x0.repeatInterleave0_length B N [D] hx0 hwx, hprodD]
      ring
    rw [hsfp]
    simp only [resultShape]
    rw [postprocess_shape_regime_d m D t_span.length N B _ false true rfl hx hD hN
      hB hlen]

/-- A condition tensor with leading size 2, for the C1 and C4 witnesses. -/
def condW2 : Tensor := { shape := [2], data := [5, 6] }

/-- Witness for C1 at `D = 2`, `N = 2`, `B = 3`, one time step, with the concrete
sampler `gW` and integrator `fW`. -/
theorem flow_sample_forward_process_shape_regimes_witness :
    resultShape (sample_forward_process mW gW fW [0] .none Option.none Option.none
      false (some .odeSolver)) = some [1, 2] ∧
    resultShape (sample_forward_process mW gW fW [0] .none (some x0mis) Option.none
      false (some .odeSolver)) = some [1, 2, 2] ∧
    resultShape (sample_forward_process mW gW fW [0] .none Option.none (some condW2)
      false (some .odeSolver)) = some [1, 2, 2] ∧
    resultShape (sample_forward_process mW gW fW [0] (.int 3) Option.none
      Option.none false (some .odeSolver)) = some [1, 3, 2] ∧
    resultShape (sample_forward_process mW gW fW [0] (.int 3) (some x0mis)
      Option.none false (some .odeSolver)) = some [1, 3, 2, 2] :=
  flow_sample_forward_process_shape_regimes mW gW fW [0] false 2 2 3 x0mis condW2
    rfl (by decide) (by decide) (by decide)
    (fun bsz => ⟨rfl, by simp [gW]⟩) (fun c => ⟨rfl, fW_length c⟩)
    (by decide) (by decide) (by decide)

/-- C4: with `x_0` of `N` rows and replication factor `k = prod(ExtraBatchShape)`,
the expanded initial state handed to the integrator places the `k` copies of
original sample `i` contiguously at flat row indices `[i*k, (i+1)*k)`; the condition
is repeat-interleaved by the same `k`, so condition and state stay aligned
index-for-index (row `j` of each comes from original index `i = j / k`). -/
theorem flow_repeat_interleave_alignment
    (m : FlowModel) (g : Nat → Tensor) (t_span : List Int) (bs : BatchSizeArg)
    (x0 cond : Tensor) (wg : Bool) (sc : Option SolverKind)
    (ebs : NatTensor) (ctx : PrepCtx) (N i j : Nat)
    (hebs : normalize_extra_batch_size bs = .ok ebs)
    (hp : prepare m g t_span bs (some x0) (some cond) wg sc = .ok ctx)
    (hwx : x0.WF) (hwc : cond.WF)
    (hN : x0.shape.headD 0 = N) (hi : i < N)
    (hj1 : i * ebs.data.prod ≤ j) (hj2 : j < (i + 1) * ebs.data.prod) :
    ctx.call.x0.row j = x0.row i ∧
    ctx.call.condition = some (cond.repeatInterleave0 ebs.data.prod) ∧
    (cond.repeatInterleave0 ebs.data.prod).row j = cond.row i := by
  obtain ⟨h1, h2, h3, h4, h5⟩ := prepare_ok_elim hp
  have hee : ctx.extra_batch_size = ebs := by
    rw [hebs] at h1
    exact (Except.ok.inj h1).symm
  have hc : x0.shape.headD 0 = cond.shape.headD 0 := by
    by_contra hcne
    simp only [infer_data_batch_size, if_neg hcne] at h2
    exact Except.noConfusion h2
  have hcondN : cond.shape.headD 0 = N := by rw [← hc]; exact hN
  obtain ⟨xrest, hx0s⟩ : ∃ rest, x0.shape = N :: rest := by
    cases hsx : x0.shape with
    | nil =>
      rw [hsx] at hN
      simp only [List.headD_nil] at hN
      omega
    | cons n rest =>
      rw [hsx] at hN
      simp only [List.headD_cons] at hN
      exact ⟨rest, by rw [hN]⟩
  obtain ⟨crest, hconds⟩ : ∃ rest, cond.shape = N :: rest := by
    cases hsx : cond.shape with
    | nil =>
      rw [hsx] at hcondN
      simp only [List.headD_nil] at hcondN
      omega
    | cons n rest =>
      rw [hsx] at hcondN
      simp only [List.headD_cons] at hcondN
      exact ⟨rest, by rw [hcondN]⟩
  have hcx : ctx.call.x0 = x0.repeatInterleave0 ebs.data.prod := by
    rw [hee] at h4
    simp only [build_x] at h4
    cases hxs : m.x_size with
    | int d =>
      rw [hxs] at h4
      dsimp only at h4
      by_cases ht : x0.shape.tail = [d]
      · rw [if_pos ht] at h4
        exact (Except.ok.inj h4).symm
      · rw [if_neg ht] at h4
        exact Except.noConfusion h4
    | seq l =>
      rw [hxs] at h4
      dsimp only at h4
      by_cases ht : x0.shape.tail = l
      · rw [if_pos ht] at h4
        exact (Except.ok.inj h4).symm
      · rw [if_neg ht] at h4
        exact Except.noConfusion h4
  have hccond : ctx.call.condition
      = some (cond.repeatInterleave0 ebs.data.prod) := by
    rw [h5, hee]
    rfl
  have hjN : j < N * ebs.data.prod :=
    lt_of_lt_of_le hj2 (Nat.mul_le_mul_right _ (by omega))
  have hdivj : j / ebs.data.prod = i := Nat.div_eq_of_lt_le hj1 hj2
  refine ⟨?_, hccond, ?_⟩
  · rw [hcx, x0.repeatInterleave0_row ebs.data.prod N xrest hx0s hwx j hjN, hdivj]
  · rw [cond.repeatInterleave0_row ebs.data.prod N crest hconds hwc j hjN, hdivj]

/-- The context `prepare` builds for the C4 witness: `x_0 = x0mis` (2 rows) and
`condition = condW2`, each repeat-interleaved by `k = 3`. -/
def ctxW4 : PrepCtx :=
  ⟨⟨[1], [3]⟩, 2, ⟨.odeSolver, ⟨[6, 2], [1, 2, 1, 2, 1, 2, 3, 4, 3, 4, 3, 4]⟩, [0],
    true, some [7], some ⟨[6], [5, 5, 5, 6, 6, 6]⟩⟩⟩

/-- Witness for C4 at `N = 2`, `k = 3`, sample `i = 1`, flat row `j = 4`. -/
theorem flow_repeat_interleave_alignment_witness :
    normalize_extra_batch_size (.int 3) = .ok ⟨[1], [3]⟩ ∧
    prepare mW gW [0] (.int 3) (some x0mis) (some condW2) false (some .odeSolver)
      = .ok ctxW4 ∧
    x0mis.WF ∧ condW2.WF ∧
    (ctxW4.call.x0.row 4 = x0mis.row 1 ∧
      ctxW4.call.condition = some (condW2.repeatInterleave0 3) ∧
      (condW2.repeatInterleave0 3).row 4 = condW2.row 1) :=
  ⟨by decide, by decide, by decide, by decide,
    flow_repeat_interleave_alignment mW gW [0] (.int 3) x0mis condW2 false
      (some .odeSolver) ⟨[1], [3]⟩ ctxW4 2 1 4 (by decide) (by decide) (by decide)
      (by decide) (by decide) (by decide) (by decide) (by decide)⟩

/-- A concrete 2-transition dataset with no fake actions attached, for the C10
witness. -/
def mdW : MinariDataset :=
  { states := [[1], [2]], actions := [[3], [4]], rewards := [[5], [6]],
    next_states := [[7], [8]], is_finished := [[0], [1]],
    fake_actions := Option.none, fake_next_actions := Option.none }

/-- Witness for C10 at a concrete dataset (2 transitions, no fake actions) and the
out-of-range index 5: `__getitem__` returns entry `5 % 2 = 1` and scalar-zero fake
entries. -/
theorem minari_getitem_mod_len_witness :
    mdW.WF ∧ 0 < mdW.len ∧
    mdW.getitem 5 = some
      { s := [2], a := [4], r := [6], s_ := [8], d := [1],
        fake_a := ItemVal.scalarZero, fake_a_ := ItemVal.scalarZero } :=
  ⟨by decide, by decide, minari_getitem_mod_len mdW 5 (by decide) (by decide)⟩
